import Mathlib

/-!
Verification of the Zapman request executor (src/app/utils/fetchAPI.ts, the
most complete variant: the one with timeout/retry/backoff) and of the bounded
history append in the UI shell (handleSubmit).

The executor's external collaborators (the network primitive fetch, the JSON
parser, the optional DOMParser capability, and the wall clock) are modelled as
an explicit environment: each attempt's network outcome -- success with a
response, or a thrown error carrying a name and a message -- is drawn from a
sequence indexed by the attempt counter, and each outcome carries the measured
duration for that attempt.  Everything the executor itself computes is
translated directly from the TypeScript source.
-/

namespace Zapman

/-- A JSON value, the shape of a structured (non-string) request body.
Numbers are modelled as integers; none of the verified properties depend on
number formatting. -/
inductive Json where
  | null : Json
  | bool (b : Bool) : Json
  | num (n : Int) : Json
  | str (s : String) : Json
  | arr (items : List Json) : Json
  | obj (fields : List (String × Json)) : Json

/-- The `body` field of ApiRequestOptions: `string | object` in the source. -/
inductive BodyValue where
  | str (s : String) : BodyValue
  | obj (j : Json) : BodyValue

/-- The parsed response body held in ApiResponse.body.  `jsNull` is the
`null` assigned on the error path; `xmlDoc`/`htmlDoc` are the structured
documents DOMParser.parseFromString produces from the raw text. -/
inductive ParsedBody where
  | json (j : Json) : ParsedBody
  | xmlDoc (raw : String) : ParsedBody
  | htmlDoc (raw : String) : ParsedBody
  | text (s : String) : ParsedBody
  | jsNull : ParsedBody

/-- A JavaScript value that can be thrown: `throw lastError` throws either
`undefined` (when no attempt ever ran) or the last caught error. -/
inductive JsError where
  | undef : JsError
  | err (name message : String) : JsError
deriving DecidableEq

/-- Host environment capabilities used by the executor: `JSON.parse` wrapped
in try/catch (hence Option), and whether `typeof DOMParser !== 'undefined'`. -/
structure Env where
  jsonParse : String → Option Json
  domParserAvailable : Bool

/-- The response object delivered by the network primitive on a successful
exchange: status line, headers (as iterated by Headers.forEach) and the fully
buffered body text. -/
structure HttpResponse where
  status : Nat
  statusText : String
  headers : List (String × String)
  bodyText : String

/-- One attempt's outcome at the network boundary: either a response, or a
thrown error with its `name` and `message`.  The duration is the wall-clock
`Date.now() - start` measured for that attempt. -/
inductive FetchOutcome where
  | success (resp : HttpResponse) (durationMs : Nat) : FetchOutcome
  | failure (name message : String) (durationMs : Nat) : FetchOutcome

/-- The argument bundle handed to the network primitive on each attempt. -/
structure FetchRequest where
  url : String
  method : String
  headers : List (String × String)
  body : Option String
deriving DecidableEq

/-- ApiRequestOptions, with the defaults of the destructuring in fetchAPI.
`retries` is an Int because it is a JS number and the loop guard
`attempt <= retries` is sensitive to negative values. -/
structure ApiRequestOptions where
  url : String
  method : String
  headers : List (String × String) := []
  body : Option BodyValue := none
  includeRawText : Bool := false
  responseFormat : Option String := none
  timeoutMs : Nat := 10000
  retries : Int := 0
  retryDelayMs : Nat := 250

/-- ApiResponse as returned by fetchAPI.  Optional fields of the TypeScript
type are Options; a field absent from the returned object literal is none. -/
structure ApiResponse where
  status : Nat
  statusText : String
  headers : List (String × String)
  body : ParsedBody
  contentType : String
  durationMs : Nat
  error : Option String := none
  rawText : Option String := none
  sizeInBytes : Option Nat := none

/-- How one call to fetchAPI ends: a returned ApiResponse or a thrown value. -/
inductive CallResult where
  | ok (r : ApiResponse) : CallResult
  | thrown (e : JsError) : CallResult

/-- Observable trace of one fetchAPI call: its result, the backoff delays
awaited between attempts (in order), the requests handed to the network
primitive (one per attempt, in order), and the final state of the
caller-supplied headers record (which the source mutates in place). -/
structure CallOutcome where
  result : CallResult
  waits : List Nat
  requests : List FetchRequest
  finalHeaders : List (String × String)

/-- One entry of the UI history list (later variants also retain the full
response for replay). -/
structure HistoryEntry where
  url : String
  method : String
  durationMs : Nat
  timestamp : Nat
  response : Option ApiResponse := none

/-- `s.includes(sub)`: case-sensitive substring test. -/
def strContains (s sub : String) : Bool :=
  s.toList.tails.any fun t => sub.toList.isPrefixOf t

/-- `s.toLowerCase()`, character by character (the format hints and header
names involved are ASCII). -/
def strLower (s : String) : String :=
  String.mk (s.toList.map Char.toLower)

/-- Escape one character of a JSON string literal (quote and backslash). -/
def escapeChar (c : Char) : String :=
  if c = '\\' then "\\\\" else if c = '"' then "\\\"" else String.singleton c

/-- A JSON string literal with its surrounding quotes. -/
def jsonQuote (s : String) : String :=
  "\"" ++ String.join (s.toList.map escapeChar) ++ "\""

mutual

/-- `JSON.stringify` for the Json model. -/
def Json.stringify : Json → String
  | .null => "null"
  | .bool true => "true"
  | .bool false => "false"
  | .num n => toString n
  | .str s => jsonQuote s
  | .arr items => "[" ++ String.intercalate "," (stringifyList items) ++ "]"
  | .obj fields => "\x7b" ++ String.intercalate "," (stringifyFields fields) ++ "\x7d"

/-- Serialize the elements of a JSON array. -/
def stringifyList : List Json → List String
  | [] => []
  | j :: rest => Json.stringify j :: stringifyList rest

/-- Serialize the members of a JSON object. -/
def stringifyFields : List (String × Json) → List String
  | [] => []
  | (k, v) :: rest => (jsonQuote k ++ ":" ++ Json.stringify v) :: stringifyFields rest

end

/-- Property read `record[k]` on a JS string record, modelled as an
association list: the value at the first pair whose key equals k. -/
def recordGet (m : List (String × String)) (k : String) : Option String :=
  match m with
  | [] => none
  | p :: rest => if p.1 == k then some p.2 else recordGet rest k

/-- Property write `record[k] = v` on a JS string record: overwrite in place
when the key is present, append otherwise. -/
def recordSet (m : List (String × String)) (k v : String) : List (String × String) :=
  if (recordGet m k).isSome then
    m.map fun p => if p.1 == k then (k, v) else p
  else
    m ++ [(k, v)]

/-- `x || d` for a possibly-undefined JS string x: undefined and the empty
string are falsy. -/
def orDefaultStr (x : Option String) (d : String) : String :=
  match x with
  | some s => if s == "" then d else s
  | none => d

/-- `['POST', 'PUT', 'PATCH'].includes(method)`. -/
def isWriteMethod (m : String) : Bool :=
  ["POST", "PUT", "PATCH"].contains m

/-- `typeof body === 'object'` for the declared `string | object` body. -/
def isObjBody : Option BodyValue → Bool
  | some (.obj _) => true
  | _ => false

/-- The `requestBody` local of one attempt: undefined unless the method is
POST/PUT/PATCH, in which case a structured body is JSON-serialized and a
string body passes through verbatim. -/
def requestBodyOf (opts : ApiRequestOptions) : Option String :=
  if isWriteMethod opts.method then
    match opts.body with
    | some (.obj j) => some (Json.stringify j)
    | some (.str s) => some s
    | none => none
  else
    none

/-- The in-place header mutation performed at the top of each attempt:
`headers['Content-Type'] = headers['Content-Type'] || 'application/json'`,
executed only when the method is POST/PUT/PATCH and the body is structured. -/
def mutateHeaders (opts : ApiRequestOptions) (h : List (String × String)) :
    List (String × String) :=
  if isWriteMethod opts.method && isObjBody opts.body then
    recordSet h "Content-Type" (orDefaultStr (recordGet h "Content-Type") "application/json")
  else
    h

/-- The request handed to the network primitive, given the current (already
mutated) state of the headers record. -/
def mkRequest (opts : ApiRequestOptions) (h : List (String × String)) : FetchRequest :=
  { url := opts.url, method := opts.method, headers := h, body := requestBodyOf opts }

/-- `responseFormat?.toLowerCase() || ""`. -/
def formatOf (rf : Option String) : String :=
  match rf with
  | some f => strLower f
  | none => ""

/-- The JSON-branch condition of the parse dispatch. -/
def jsonMode (rf : Option String) (ct : String) : Bool :=
  (formatOf rf == "json") || ((formatOf rf == "") && strContains ct "application/json")

/-- The XML-branch condition of the parse dispatch. -/
def xmlMode (rf : Option String) (ct : String) : Bool :=
  (formatOf rf == "xml") ||
    ((formatOf rf == "") &&
      (strContains ct "application/xml" || strContains ct "text/xml" ||
        strContains ct "application/xhtml+xml"))

/-- The HTML-branch condition of the parse dispatch. -/
def htmlMode (rf : Option String) (ct : String) : Bool :=
  (formatOf rf == "html") || ((formatOf rf == "") && strContains ct "text/html")

/-- The body-parsing dispatch of fetchAPI: explicit responseFormat first,
content-type sniffing otherwise; JSON parse failures fall back to the raw
text; XML/HTML parse only when DOMParser exists, else raw text. -/
def parseBody (env : Env) (rf : Option String) (ct rawText : String) : ParsedBody :=
  if jsonMode rf ct then
    match env.jsonParse rawText with
    | some j => .json j
    | none => .text rawText
  else if xmlMode rf ct then
    if env.domParserAvailable then .xmlDoc rawText else .text rawText
  else if htmlMode rf ct then
    if env.domParserAvailable then .htmlDoc rawText else .text rawText
  else
    .text rawText

/-- `response.headers.get(k)`: case-insensitive header lookup. -/
def headersGet (hs : List (String × String)) (k : String) : Option String :=
  (hs.find? fun p => strLower p.1 == strLower k).map fun p => p.2

/-- The `headersObj` accumulation: forEach over the response headers writing
each value under the lower-cased key. -/
def lowerHeaders (hs : List (String × String)) : List (String × String) :=
  hs.foldl (fun m p => recordSet m (strLower p.1) p.2) []

/-- The ApiResponse built on the success path of one attempt. -/
def mkSuccess (env : Env) (opts : ApiRequestOptions) (resp : HttpResponse)
    (dur : Nat) : ApiResponse :=
  let ct := orDefaultStr (headersGet resp.headers "content-type") ""
  { status := resp.status
    statusText := resp.statusText
    contentType := ct
    headers := lowerHeaders resp.headers
    body := parseBody env opts.responseFormat ct resp.bodyText
    durationMs := dur
    sizeInBytes := some resp.bodyText.utf8ByteSize
    rawText := if opts.includeRawText then some resp.bodyText else none
    error := none }

/-- The ApiResponse built on the catch path when no further retry happens. -/
def mkErrorResult (msg : String) (dur : Nat) : ApiResponse :=
  { status := 0
    statusText := "Network error"
    contentType := ""
    headers := []
    body := .jsNull
    durationMs := dur
    error := some msg }

/-- `error.name === 'AbortError' || error.message.includes('Network')`. -/
def isRetriable (name msg : String) : Bool :=
  (name == "AbortError") || strContains msg "Network"

/-- Number of iterations of `for (attempt = 0; attempt <= retries; attempt++)`
for an integral retries value. -/
def totalAttempts (retries : Int) : Nat :=
  if retries < 0 then 0 else retries.toNat + 1

/-- The retry loop of fetchAPI.  `attempt` is the loop counter, `remaining`
the number of iterations the guard still allows (so `attempt === retries`
exactly when remaining = 1), `lastError` the variable of the same name, and
`hdrs` the current state of the caller's headers record.  Exhausting the
guard without returning reaches `throw lastError`. -/
def fetchLoop (env : Env) (outcomes : Nat → FetchOutcome) (opts : ApiRequestOptions) :
    Nat → Nat → JsError → List (String × String) → CallOutcome
  | _, 0, lastError, hdrs => ⟨.thrown lastError, [], [], hdrs⟩
  | attempt, r + 1, _, hdrs =>
    let hdrs2 := mutateHeaders opts hdrs
    let req := mkRequest opts hdrs2
    match outcomes attempt with
    | .success resp dur =>
      ⟨.ok (mkSuccess env opts resp dur), [], [req], hdrs2⟩
    | .failure name msg dur =>
      if !(isRetriable name msg) || r == 0 then
        ⟨.ok (mkErrorResult msg dur), [], [req], hdrs2⟩
      else
        let rest := fetchLoop env outcomes opts (attempt + 1) r (.err name msg) hdrs2
        ⟨rest.result, opts.retryDelayMs * 2 ^ attempt :: rest.waits,
          req :: rest.requests, rest.finalHeaders⟩

/-- One call to fetchAPI under a given environment and network behavior. -/
def fetchAPI (env : Env) (outcomes : Nat → FetchOutcome) (opts : ApiRequestOptions) :
    CallOutcome :=
  fetchLoop env outcomes opts 0 (totalAttempts opts.retries) .undef opts.headers


/-- Trivial environment for concrete runs: JSON.parse always fails and no
DOMParser is available. -/
def env0 : Env := { jsonParse := fun _ => none, domParserAvailable := false }

/-- Environment with a DOMParser available. -/
def envDom : Env := { jsonParse := fun _ => none, domParserAvailable := true }

/-- Every attempt fails with a non-retriable error (Chromium wording). -/
def outFail : Nat → FetchOutcome := fun _ => .failure "TypeError" "Failed to fetch" 7

/-- Every attempt times out (retriable abort). -/
def outAbort : Nat → FetchOutcome := fun _ => .failure "AbortError" "aborted" 3

/-- First attempt times out, every later attempt fails non-retriably. -/
def outMix : Nat → FetchOutcome := fun k =>
  if k == 0 then .failure "AbortError" "aborted" 3 else .failure "TypeError" "boom" 2

/-- A plain 200 text/plain response on every attempt. -/
def respPlain : HttpResponse :=
  { status := 200, statusText := "OK", headers := [("Content-Type", "text/plain")],
    bodyText := "hi" }

/-- Every attempt succeeds with respPlain after 5 ms. -/
def outSucc : Nat → FetchOutcome := fun _ => .success respPlain 5


/-- A bare GET request spec. -/
def optsGet : ApiRequestOptions := { url := "u", method := "GET" }

/-- The response fetchAPI returns for optsGet under env0/outSucc. -/
def resPlainGet : ApiResponse := mkSuccess env0 optsGet respPlain 5

/-- A GET spec whose body field is nonetheless populated. -/
def optsGetBody : ApiRequestOptions :=
  { url := "u", method := "GET", body := some (.str "ignored") }

/-- The request optsGetBody puts on the wire. -/
def reqGetBody : FetchRequest := { url := "u", method := "GET", headers := [], body := none }

/-- A POST spec with a structured body and a Content-Type set to the empty
string by the caller. -/
def optsCT : ApiRequestOptions :=
  { url := "u", method := "POST", headers := [("Content-Type", "")],
    body := some (.obj .null) }

/-- A POST spec with a structured body and no caller Content-Type. -/
def optsPostObj : ApiRequestOptions :=
  { url := "u", method := "POST", body := some (.obj .null) }

/-- The request optsPostObj puts on the wire. -/
def reqPostObj : FetchRequest :=
  { url := "u", method := "POST", headers := [("Content-Type", "application/json")],
    body := some "null" }

/-- A GET spec allowing two retries. -/
def optsRetry2 : ApiRequestOptions := { url := "u", method := "GET", retries := 2 }

/-- A GET spec allowing five retries. -/
def optsRetry5 : ApiRequestOptions := { url := "u", method := "GET", retries := 5 }

/-- A POST spec with a structured body and no headers at all. -/
def optsMut : ApiRequestOptions := { url := "u", method := "POST", body := some (.obj .null) }

/-- A POST spec with a structured body and an unrelated caller header. -/
def optsMutHdr : ApiRequestOptions :=
  { url := "u", method := "POST", headers := [("X-Token", "t")], body := some (.obj .null) }

/-- Sample history entries. -/
def entryW : HistoryEntry := { url := "u", method := "GET", durationMs := 1, timestamp := 0 }

/-- A second, distinct history entry. -/
def entryW2 : HistoryEntry := { url := "v", method := "POST", durationMs := 2, timestamp := 9 }

/-- A full history of twenty entries. -/
def prevW : List HistoryEntry := List.replicate 20 entryW

/-- The history append of handleSubmit:
`setHistory(prev => [...prev.slice(-19), entry])`.  `slice(-19)` keeps the
last min(19, length) elements. -/
def appendHistory (prev : List HistoryEntry) (e : HistoryEntry) : List HistoryEntry :=
  prev.drop (prev.length - 19) ++ [e]


theorem recordGet_none_not_mem {m : List (String × String)} {k : String}
    (h : recordGet m k = none) : ∀ p ∈ m, p.1 ≠ k := by
  induction m with
  | nil => intro p hp; cases hp
  | cons q rest ih =>
    intro p hp
    cases hq : q.1 == k with
    | true => simp [recordGet, hq] at h
    | false =>
      simp only [recordGet, hq, if_false, Bool.false_eq_true] at h
      rcases List.mem_cons.mp hp with hp | hp
      · subst hp; exact fun he => by simp [he] at hq
      · exact ih h p hp

theorem recordGet_map_set {m : List (String × String)} {k v : String}
    (h : (recordGet m k).isSome = true) :
    recordGet (m.map fun p => if p.1 == k then (k, v) else p) k = some v := by
  induction m with
  | nil => simp [recordGet] at h
  | cons q rest ih =>
    cases hq : q.1 == k with
    | true => simp [recordGet, hq]
    | false =>
      simp only [recordGet, hq, Bool.false_eq_true, if_false] at h
      simp only [List.map_cons, hq, Bool.false_eq_true, if_false, recordGet]
      exact ih h

theorem recordGet_append_of_none {m : List (String × String)} {k : String} (v : String)
    (h : recordGet m k = none) :
    recordGet (m ++ [(k, v)]) k = some v := by
  induction m with
  | nil => simp [recordGet]
  | cons q rest ih =>
    cases hq : q.1 == k with
    | true => simp [recordGet, hq] at h
    | false =>
      simp only [recordGet, hq, Bool.false_eq_true, if_false] at h
      simp only [List.cons_append, recordGet, hq, Bool.false_eq_true, if_false]
      exact ih h

theorem recordGet_recordSet_self (m : List (String × String)) (k v : String) :
    recordGet (recordSet m k v) k = some v := by
  rw [recordSet]
  by_cases h : (recordGet m k).isSome = true
  · rw [if_pos h]; exact recordGet_map_set h
  · rw [if_neg h]
    exact recordGet_append_of_none v (Option.not_isSome_iff_eq_none.mp h)

theorem recordGet_map_set_ne (m : List (String × String)) {k k' : String} (v : String)
    (hne : k' ≠ k) :
    recordGet (m.map fun p => if p.1 == k then (k, v) else p) k' = recordGet m k' := by
  have hkk : (k == k') = false := beq_eq_false_iff_ne.mpr fun he => hne he.symm
  induction m with
  | nil => simp [recordGet]
  | cons q rest ih =>
    cases hq : q.1 == k with
    | true =>
      have hq1 : (q.1 == k') = false := by
        have : q.1 = k := beq_iff_eq.mp hq
        rw [this]; exact hkk
      simp only [List.map_cons, hq, if_true, recordGet, hkk, hq1, Bool.false_eq_true,
        if_false]
      exact ih
    | false =>
      simp only [List.map_cons, hq, Bool.false_eq_true, if_false, recordGet]
      cases hq' : q.1 == k' with
      | true => simp
      | false => simp only [Bool.false_eq_true, if_false]; exact ih

theorem recordGet_append_ne (m : List (String × String)) {k k' : String} (v : String)
    (hne : k' ≠ k) :
    recordGet (m ++ [(k, v)]) k' = recordGet m k' := by
  have hkk : (k == k') = false := beq_eq_false_iff_ne.mpr fun he => hne he.symm
  induction m with
  | nil => simp [recordGet, hkk]
  | cons q rest ih =>
    cases hq : q.1 == k' with
    | true => simp [recordGet, hq]
    | false =>
      simp only [List.cons_append, recordGet, hq, Bool.false_eq_true, if_false]
      exact ih

theorem recordGet_recordSet_ne (m : List (String × String)) {k k' : String} (v : String)
    (hne : k' ≠ k) :
    recordGet (recordSet m k v) k' = recordGet m k' := by
  rw [recordSet]
  by_cases h : (recordGet m k).isSome = true
  · rw [if_pos h]; exact recordGet_map_set_ne m v hne
  · rw [if_neg h]; exact recordGet_append_ne m v hne

theorem recordSet_key_pairs {m : List (String × String)} {k v : String} :
    ∀ p ∈ recordSet m k v, p.1 = k → p = (k, v) := by
  rw [recordSet]
  by_cases h : (recordGet m k).isSome = true
  · rw [if_pos h]
    intro p hp hpk
    rcases List.mem_map.mp hp with ⟨q, hq, hfq⟩
    cases hqk : q.1 == k with
    | true => rw [if_pos hqk] at hfq; exact hfq.symm
    | false =>
      rw [hqk] at hfq
      simp only [Bool.false_eq_true, if_false] at hfq
      subst hfq
      exact absurd hpk fun he => by simp [he] at hqk
  · rw [if_neg h]
    intro p hp hpk
    rcases List.mem_append.mp hp with hp | hp
    · exact absurd hpk
        (recordGet_none_not_mem (Option.not_isSome_iff_eq_none.mp h) p hp)
    · simpa using hp

theorem recordSet_recordSet (m : List (String × String)) (k v : String) :
    recordSet (recordSet m k v) k v = recordSet m k v := by
  have hs : (recordGet (recordSet m k v) k).isSome = true := by
    rw [recordGet_recordSet_self]; rfl
  rw [recordSet, if_pos hs]
  have key : ∀ l : List (String × String), (∀ p ∈ l, p.1 = k → p = (k, v)) →
      (l.map fun p => if p.1 == k then (k, v) else p) = l := by
    intro l
    induction l with
    | nil => intro _; rfl
    | cons q rest ih =>
      intro hl
      simp only [List.map_cons]
      cases hq : q.1 == k with
      | true =>
        rw [if_pos rfl, ih fun p hp => hl p (List.mem_cons_of_mem q hp),
          ← hl q (List.mem_cons_self q rest) (beq_iff_eq.mp hq)]
      | false =>
        rw [if_neg Bool.false_ne_true, ih fun p hp => hl p (List.mem_cons_of_mem q hp)]
  exact key _ recordSet_key_pairs

theorem orDefaultStr_ne_empty (x : Option String) {d : String} (hd : d ≠ "") :
    orDefaultStr x d ≠ "" := by
  rcases x with _ | s
  · exact hd
  · rw [orDefaultStr]
    cases hs : s == "" with
    | true => rw [if_pos rfl]; exact hd
    | false =>
      rw [if_neg Bool.false_ne_true]
      exact beq_eq_false_iff_ne.mp hs

theorem mutateHeaders_idem (opts : ApiRequestOptions) (h : List (String × String)) :
    mutateHeaders opts (mutateHeaders opts h) = mutateHeaders opts h := by
  rw [mutateHeaders, mutateHeaders]
  by_cases ht : (isWriteMethod opts.method && isObjBody opts.body) = true
  · rw [if_pos ht, if_pos ht]
    rw [recordGet_recordSet_self]
    have hv : orDefaultStr (recordGet h "Content-Type") "application/json" ≠ "" :=
      orDefaultStr_ne_empty _ (by decide)
    have : orDefaultStr (some (orDefaultStr (recordGet h "Content-Type") "application/json"))
        "application/json" = orDefaultStr (recordGet h "Content-Type") "application/json" := by
      rw [orDefaultStr, if_neg]
      simpa using hv
    rw [this]
    exact recordSet_recordSet _ _ _
  · rw [if_neg ht, if_neg ht]

theorem isPrefixOf_iff_append (s l : List Char) :
    s.isPrefixOf l = true ↔ ∃ t, l = s ++ t := by
  induction s generalizing l with
  | nil => simp [List.isPrefixOf]
  | cons a as ih =>
    cases l with
    | nil => simp [List.isPrefixOf]
    | cons b bs =>
      simp only [List.isPrefixOf, Bool.and_eq_true, beq_iff_eq, ih, List.cons_append,
        List.cons_eq_cons]
      constructor
      · rintro ⟨hab, t, ht⟩; exact ⟨t, hab.symm, ht⟩
      · rintro ⟨t, hab, ht⟩; exact ⟨hab.symm, t, ht⟩

theorem strContains_iff (s sub : String) :
    strContains s sub = true ↔ ∃ pre post, s.toList = pre ++ sub.toList ++ post := by
  rw [strContains, List.any_eq_true]
  constructor
  · rintro ⟨t, ht, hpre⟩
    rcases (List.mem_tails t s.toList).mp ht with ⟨pre, hpre'⟩
    rcases (isPrefixOf_iff_append _ _).mp hpre with ⟨post, hpost⟩
    exact ⟨pre, post, by rw [← hpre', hpost, List.append_assoc]⟩
  · rintro ⟨pre, post, hsplit⟩
    refine ⟨sub.toList ++ post, ?_, ?_⟩
    · exact (List.mem_tails _ _).mpr ⟨pre, by rw [hsplit, List.append_assoc]⟩
    · exact (isPrefixOf_iff_append _ _).mpr ⟨post, rfl⟩

theorem fetchLoop_requests (env : Env) (outcomes : Nat → FetchOutcome)
    (opts : ApiRequestOptions) :
    ∀ (r a : Nat) (le : JsError) (h : List (String × String)),
      ∀ req ∈ (fetchLoop env outcomes opts a r le h).requests,
        req = mkRequest opts (mutateHeaders opts h) := by
  intro r
  induction r with
  | zero => intro a le h req hreq; simp [fetchLoop] at hreq
  | succ r ih =>
    intro a le h req hreq
    simp only [fetchLoop] at hreq
    split at hreq
    · simpa using hreq
    · split at hreq
      · simpa using hreq
      · rename_i name msg dur heq hc
        rcases List.mem_cons.mp hreq with hreq | hreq
        · exact hreq
        · have := ih (a + 1) (.err name msg) (mutateHeaders opts h) req hreq
          rwa [mutateHeaders_idem] at this

theorem fetchLoop_finalHeaders (env : Env) (outcomes : Nat → FetchOutcome)
    (opts : ApiRequestOptions) :
    ∀ (r a : Nat) (le : JsError) (h : List (String × String)), 1 ≤ r →
      (fetchLoop env outcomes opts a r le h).finalHeaders = mutateHeaders opts h := by
  intro r
  induction r with
  | zero => intro a le h hr; omega
  | succ r ih =>
    intro a le h _
    simp only [fetchLoop]
    split
    · rfl
    · split
      · rfl
      · rename_i name msg dur heq hc
        have hr : 1 ≤ r := by
          rcases Nat.eq_zero_or_pos r with h0 | h1
          · exfalso; apply hc; subst h0; simp
          · exact h1
        show (fetchLoop env outcomes opts (a + 1) r (.err name msg)
          (mutateHeaders opts h)).finalHeaders = mutateHeaders opts h
        rw [ih (a + 1) (.err name msg) (mutateHeaders opts h) hr, mutateHeaders_idem]

theorem fetchLoop_ok_cases (env : Env) (outcomes : Nat → FetchOutcome)
    (opts : ApiRequestOptions) :
    ∀ (r a : Nat) (le : JsError) (h : List (String × String)) (res : ApiResponse),
      (fetchLoop env outcomes opts a r le h).result = .ok res →
      (∃ k resp dur, outcomes k = .success resp dur ∧ res = mkSuccess env opts resp dur) ∨
        (∃ msg dur, res = mkErrorResult msg dur) := by
  intro r
  induction r with
  | zero => intro a le h res hres; simp [fetchLoop] at hres
  | succ r ih =>
    intro a le h res hres
    simp only [fetchLoop] at hres
    split at hres
    · rename_i resp dur heq
      simp only [CallResult.ok.injEq] at hres
      exact Or.inl ⟨a, resp, dur, heq, hres.symm⟩
    · split at hres
      · rename_i name msg dur heq hc
        simp only [CallResult.ok.injEq] at hres
        exact Or.inr ⟨msg, dur, hres.symm⟩
      · rename_i name msg dur heq hc
        exact ih (a + 1) (.err name msg) (mutateHeaders opts h) res hres

theorem fetchLoop_waits (env : Env) (outcomes : Nat → FetchOutcome)
    (opts : ApiRequestOptions) :
    ∀ (r a : Nat) (le : JsError) (h : List (String × String)),
      ∃ m, (fetchLoop env outcomes opts a r le h).waits =
        (List.range' a m).map fun k => opts.retryDelayMs * 2 ^ k := by
  intro r
  induction r with
  | zero => intro a le h; exact ⟨0, rfl⟩
  | succ r ih =>
    intro a le h
    simp only [fetchLoop]
    split
    · exact ⟨0, rfl⟩
    · split
      · exact ⟨0, rfl⟩
      · rename_i name msg dur heq hc
        rcases ih (a + 1) (.err name msg) (mutateHeaders opts h) with ⟨m, hm⟩
        refine ⟨m + 1, ?_⟩
        show opts.retryDelayMs * 2 ^ a :: (fetchLoop env outcomes opts (a + 1) r
          (.err name msg) (mutateHeaders opts h)).waits =
          (List.range' a (m + 1)).map fun k => opts.retryDelayMs * 2 ^ k
        rw [hm, List.range'_succ, List.map_cons]

theorem fetchLoop_exhaust (env : Env) (outcomes : Nat → FetchOutcome)
    (opts : ApiRequestOptions) :
    ∀ (r a : Nat) (le : JsError) (h : List (String × String)) (nm ms : String) (d : Nat),
      (∀ k, k + 1 < r → ∃ nm' ms' d', outcomes (a + k) = .failure nm' ms' d' ∧
        isRetriable nm' ms' = true) →
      outcomes (a + (r - 1)) = .failure nm ms d →
      1 ≤ r →
      (fetchLoop env outcomes opts a r le h).result = .ok (mkErrorResult ms d) := by
  intro r
  induction r with
  | zero => intro a le h nm ms d _ _ hr; omega
  | succ r ih =>
    intro a le h nm ms d hmid hlast _
    simp only [fetchLoop]
    rcases Nat.eq_zero_or_pos r with h0 | h1
    · subst h0
      simp only [Nat.add_sub_cancel, Nat.add_zero] at hlast
      split
      · rename_i resp dur heq
        rw [hlast] at heq; cases heq
      · rename_i name msg dur heq
        rw [hlast] at heq
        injection heq with e1 e2 e3
        subst e1; subst e2; subst e3
        split
        · rfl
        · rename_i hcond
          exfalso; apply hcond; simp
    · have h01 : 0 + 1 < r + 1 := by omega
      split
      · rename_i resp dur heq
        rcases hmid 0 h01 with ⟨nm2, ms2, d2, ho, _⟩
        rw [Nat.add_zero] at ho
        rw [ho] at heq; cases heq
      · rename_i name msg dur heq
        split
        · rename_i hcond
          rcases hmid 0 h01 with ⟨nm2, ms2, d2, ho, hretri⟩
          rw [Nat.add_zero] at ho
          rw [ho] at heq
          injection heq with e1 e2 e3
          subst e1; subst e2
          rw [hretri] at hcond
          simp only [Bool.not_true, Bool.false_or] at hcond
          exact absurd (beq_iff_eq.mp hcond) (by omega)
        · rename_i hcond
          exact ih (a + 1) (.err name msg) (mutateHeaders opts h) nm ms d
            (fun k hk => by
              have := hmid (k + 1) (by omega)
              rwa [show a + (k + 1) = a + 1 + k by omega] at this)
            (by rwa [show a + 1 + (r - 1) = a + (r + 1 - 1) by omega])
            h1

end Zapman

namespace Zapman

theorem fetchLoop_nonretriable (env : Env) (outcomes : Nat → FetchOutcome)
    (opts : ApiRequestOptions) (r a : Nat) (le : JsError) (h : List (String × String))
    (nm ms : String) (d : Nat)
    (ho : outcomes a = .failure nm ms d) (hnr : isRetriable nm ms = false) :
    fetchLoop env outcomes opts a (r + 1) le h =
      ⟨.ok (mkErrorResult ms d), [], [mkRequest opts (mutateHeaders opts h)],
        mutateHeaders opts h⟩ := by
  simp only [fetchLoop]
  split
  · rename_i resp dur heq; rw [ho] at heq; cases heq
  · rename_i name msg dur heq
    rw [ho] at heq
    injection heq with e1 e2 e3
    subst e1; subst e2; subst e3
    split
    · rfl
    · rename_i hcond
      exfalso; apply hcond; rw [hnr]; rfl

/-- C1: on retry exhaustion (all attempts consumed: each attempt before the
last fails retriably and the final attempt fails), fetchAPI returns the last
failure's normalized ResponseResult; yet there exists an input (a retries
value with a failure sequence) on which the call instead propagates a thrown
value to the caller rather than returning a result. -/
theorem claim1 :
    (∀ (env : Env) (outcomes : Nat → FetchOutcome) (opts : ApiRequestOptions)
      (n : Nat) (nm ms : String) (d : Nat),
      opts.retries = (n : Int) →
      (∀ k, k < n → ∃ nm' ms' d', outcomes k = .failure nm' ms' d' ∧
        isRetriable nm' ms' = true) →
      outcomes n = .failure nm ms d →
      (fetchAPI env outcomes opts).result = .ok (mkErrorResult ms d)) ∧
    (∃ (env : Env) (outcomes : Nat → FetchOutcome) (opts : ApiRequestOptions)
      (e : JsError), (fetchAPI env outcomes opts).result = .thrown e) := by
  constructor
  · intro env outcomes opts n nm ms d hret hmid hlast
    have htot : totalAttempts opts.retries = n + 1 := by
      rw [hret, totalAttempts, if_neg (by omega)]
      omega
    rw [fetchAPI, htot]
    exact fetchLoop_exhaust env outcomes opts (n + 1) 0 .undef opts.headers nm ms d
      (fun k hk => by rw [Nat.zero_add]; exact hmid k (by omega))
      (by rw [Nat.zero_add, Nat.add_sub_cancel]; exact hlast)
      (by omega)
  · exact ⟨env0, outFail, { url := "u", method := "GET", retries := -1 }, .undef, rfl⟩

/-- Witness for C1: retries = 1, a retriable timeout followed by a
non-retriable failure; the call returns the last failure's error result. -/
theorem claim1_witness :
    (fetchAPI env0 outMix { url := "u", method := "GET", retries := 1 }).result =
      .ok (mkErrorResult "boom" 2) := by
  apply claim1.1 env0 outMix _ 1 "TypeError" "boom" 2 rfl
  · intro k hk
    have hk0 : k = 0 := by omega
    subst hk0
    exact ⟨"AbortError", "aborted", 3, rfl, by decide⟩
  · rfl

/-- C2: every ApiResponse returned by fetchAPI either reflects a successful
HTTP exchange (status and statusText taken from some attempt's response, no
error field) or carries an error with status 0 and the fixed statusText; a
populated error never coexists with a nonzero status. -/
theorem claim2 (env : Env) (outcomes : Nat → FetchOutcome) (opts : ApiRequestOptions)
    (res : ApiResponse) (hres : (fetchAPI env outcomes opts).result = .ok res) :
    ((res.error = none ∧ ∃ k resp dur, outcomes k = .success resp dur ∧
        res.status = resp.status ∧ res.statusText = resp.statusText) ∨
      (res.status = 0 ∧ res.statusText = "Network error" ∧ ∃ m, res.error = some m)) ∧
    ¬(res.error ≠ none ∧ res.status ≠ 0) := by
  rcases fetchLoop_ok_cases env outcomes opts (totalAttempts opts.retries) 0 .undef
      opts.headers res hres with ⟨k, resp, dur, ho, hr⟩ | ⟨msg, dur, hr⟩
  · subst hr
    exact ⟨Or.inl ⟨rfl, k, resp, dur, ho, rfl, rfl⟩, fun h => h.1 rfl⟩
  · subst hr
    exact ⟨Or.inr ⟨rfl, rfl, msg, rfl⟩, fun h => h.2 rfl⟩

/-- Witness for C2 on a concrete successful exchange. -/
theorem claim2_witness :
    ((resPlainGet.error = none ∧ ∃ k resp dur, outSucc k = FetchOutcome.success resp dur ∧
        resPlainGet.status = resp.status ∧ resPlainGet.statusText = resp.statusText) ∨
      (resPlainGet.status = 0 ∧ resPlainGet.statusText = "Network error" ∧
        ∃ m, resPlainGet.error = some m)) ∧
    ¬(resPlainGet.error ≠ none ∧ resPlainGet.status ≠ 0) :=
  claim2 env0 outSucc optsGet resPlainGet rfl

/-- C3: a GET or DELETE spec never puts a body on the wire, whatever the
spec's body field holds. -/
theorem claim3 (env : Env) (outcomes : Nat → FetchOutcome) (opts : ApiRequestOptions)
    (hm : opts.method = "GET" ∨ opts.method = "DELETE") :
    ∀ req ∈ (fetchAPI env outcomes opts).requests, req.body = none := by
  intro req hreq
  rw [fetchLoop_requests env outcomes opts (totalAttempts opts.retries) 0 .undef
    opts.headers req hreq]
  show requestBodyOf opts = none
  rw [requestBodyOf]
  rcases hm with hm | hm <;> rw [hm] <;> rfl

/-- Witness for C3: a GET spec with a populated body field sends none. -/
theorem claim3_witness : reqGetBody.body = none :=
  claim3 env0 outFail optsGetBody (Or.inl rfl) reqGetBody (by decide)

/-- C4 counterexample: the caller has set Content-Type (to the empty string)
and the outgoing exchange does not leave it unchanged: it carries
application/json instead. -/
theorem claim4_cex :
    recordGet optsCT.headers "Content-Type" = some "" ∧
    (fetchAPI env0 outFail optsCT).requests.map
      (fun r => recordGet r.headers "Content-Type") = [some "application/json"] :=
  ⟨rfl, by decide⟩

/-- C4 (amended): for POST/PUT/PATCH with a structured body, every outgoing
request's payload is the JSON serialization of that body; the outgoing
Content-Type is application/json when the caller supplied no Content-Type or
supplied the empty string, and equals the caller's value whenever that value
is non-empty. -/
theorem claim4_amended (env : Env) (outcomes : Nat → FetchOutcome)
    (opts : ApiRequestOptions) (j : Json)
    (hm : isWriteMethod opts.method = true) (hb : opts.body = some (.obj j)) :
    ∀ req ∈ (fetchAPI env outcomes opts).requests,
      req.body = some (Json.stringify j) ∧
      ((recordGet opts.headers "Content-Type" = none ∨
          recordGet opts.headers "Content-Type" = some "") →
        recordGet req.headers "Content-Type" = some "application/json") ∧
      (∀ v, v ≠ "" → recordGet opts.headers "Content-Type" = some v →
        recordGet req.headers "Content-Type" = some v) := by
  intro req hreq
  rw [fetchLoop_requests env outcomes opts (totalAttempts opts.retries) 0 .undef
    opts.headers req hreq]
  have htrig : (isWriteMethod opts.method && isObjBody opts.body) = true := by
    rw [hm, hb]; rfl
  refine ⟨?_, ?_, ?_⟩
  · show requestBodyOf opts = some (Json.stringify j)
    rw [requestBodyOf, if_pos hm, hb]
  · intro hct
    show recordGet (mutateHeaders opts opts.headers) "Content-Type" =
      some "application/json"
    rw [mutateHeaders, if_pos htrig, recordGet_recordSet_self]
    rcases hct with hct | hct <;> rw [hct] <;> rfl
  · intro v hv hct
    show recordGet (mutateHeaders opts opts.headers) "Content-Type" = some v
    rw [mutateHeaders, if_pos htrig, recordGet_recordSet_self, hct]
    simp only [orDefaultStr]
    rw [if_neg fun hh => hv (beq_iff_eq.mp hh)]

/-- Witness for the amended C4 on a POST with a structured body and no
caller Content-Type. -/
theorem claim4_witness :
    reqPostObj.body = some (Json.stringify Json.null) ∧
    recordGet reqPostObj.headers "Content-Type" = some "application/json" := by
  have h := claim4_amended env0 outFail optsPostObj Json.null rfl rfl reqPostObj (by decide)
  exact ⟨h.1, h.2.1 (Or.inl rfl)⟩

/-- C5: in JSON parse mode, a failing JSON parse degrades to the unparsed raw
text as the body (the parse failure is absorbed, never raised). -/
theorem claim5 (env : Env) (rf : Option String) (ct raw : String)
    (hmode : jsonMode rf ct = true) (hparse : env.jsonParse raw = none) :
    parseBody env rf ct raw = .text raw := by
  rw [parseBody, if_pos hmode, hparse]

/-- Witness for C5 with a parser that rejects the input. -/
theorem claim5_witness :
    parseBody env0 (some "json") "text/plain" "not json" = ParsedBody.text "not json" :=
  claim5 env0 (some "json") "text/plain" "not json" (by decide) rfl

/-- C6: with an explicit responseFormat the parse mode ignores the response's
content-type entirely; in particular responseFormat xml against an
application/json content-type parses as an XML document, falling back to raw
text exactly when no DOMParser is available. -/
theorem claim6 (env : Env) (fmt ct ct2 raw : String)
    (hf : fmt = "json" ∨ fmt = "xml" ∨ fmt = "html") :
    parseBody env (some fmt) ct raw = parseBody env (some fmt) ct2 raw ∧
    parseBody env (some "xml") "application/json" raw =
      (if env.domParserAvailable then ParsedBody.xmlDoc raw else ParsedBody.text raw) := by
  constructor
  · rcases hf with hf | hf | hf <;> subst hf <;> rfl
  · rfl

/-- Witness for C6: responseFormat xml wins over a JSON content-type when a
DOMParser exists. -/
theorem claim6_witness :
    parseBody envDom (some "xml") "application/json" "<a/>" = ParsedBody.xmlDoc "<a/>" := by
  have h := (claim6 envDom "xml" "application/json" "text/plain" "<a/>"
    (Or.inr (Or.inl rfl))).2
  exact h

/-- C7: the backoff delays awaited by one fetchAPI call are exactly
retryDelayMs * 2 ^ k for k = 0, 1, ..., and are monotone, strictly so for a
positive retryDelayMs. -/
theorem claim7 (env : Env) (outcomes : Nat → FetchOutcome) (opts : ApiRequestOptions) :
    ∃ m, (fetchAPI env outcomes opts).waits =
        (List.range m).map (fun k => opts.retryDelayMs * 2 ^ k) ∧
      (∀ i, i < m → (fetchAPI env outcomes opts).waits[i]? =
        some (opts.retryDelayMs * 2 ^ i)) ∧
      List.Pairwise (· ≤ ·) (fetchAPI env outcomes opts).waits ∧
      (0 < opts.retryDelayMs →
        List.Pairwise (· < ·) (fetchAPI env outcomes opts).waits) := by
  simp only [fetchAPI]
  rcases fetchLoop_waits env outcomes opts (totalAttempts opts.retries) 0 .undef
      opts.headers with ⟨m, hm⟩
  rw [← List.range_eq_range'] at hm
  refine ⟨m, hm, ?_, ?_, ?_⟩
  · intro i hi
    rw [hm, List.getElem?_map, List.getElem?_range hi]
    rfl
  · rw [hm]
    exact List.Pairwise.map _
      (fun a b hab => Nat.mul_le_mul (Nat.le_refl _)
        (Nat.pow_le_pow_right (by omega) (Nat.le_of_lt hab)))
      (List.pairwise_lt_range m)
  · intro hd
    rw [hm]
    exact List.Pairwise.map _
      (fun a b hab => mul_lt_mul_of_pos_left (Nat.pow_lt_pow_right (by omega) hab) hd)
      (List.pairwise_lt_range m)

/-- Witness for C7 on two timeouts with the default 250 ms base delay. -/
theorem claim7_witness :
    List.Pairwise (· ≤ ·) (fetchAPI env0 outAbort optsRetry2).waits ∧
    List.Pairwise (· < ·) (fetchAPI env0 outAbort optsRetry2).waits := by
  rcases claim7 env0 outAbort optsRetry2 with ⟨m, _, _, hle, hlt⟩
  exact ⟨hle, hlt (by decide)⟩

/-- C8: the history append keeps at most 20 entries; on a full 20-entry store
it drops the entry at index 0 and appends the new entry last; below capacity
it is a plain append. -/
theorem claim8 (prev : List HistoryEntry) (e : HistoryEntry) :
    (appendHistory prev e).length ≤ 20 ∧
    (prev.length = 20 → appendHistory prev e = prev.tail ++ [e]) ∧
    (prev.length ≤ 19 → appendHistory prev e = prev ++ [e]) := by
  refine ⟨?_, ?_, ?_⟩
  · rw [appendHistory, List.length_append, List.length_drop]
    simp only [List.length_singleton]
    omega
  · intro h20
    rw [appendHistory, h20]
    have h1 : (20 - 19 : Nat) = 1 := rfl
    rw [h1, List.drop_one]
  · intro h19
    rw [appendHistory, Nat.sub_eq_zero_of_le h19, List.drop_zero]

/-- Witness for C8 on a full 20-entry history. -/
theorem claim8_witness :
    (appendHistory prevW entryW2).length ≤ 20 ∧
    appendHistory prevW entryW2 = prevW.tail ++ [entryW2] :=
  ⟨(claim8 prevW entryW2).1, (claim8 prevW entryW2).2.1 (by decide)⟩

/-- C9 counterexample: fetchAPI mutates the caller-supplied spec: after a
POST with a structured body and no caller Content-Type, the caller's headers
record is no longer what it was. -/
theorem claim9_cex :
    (fetchAPI env0 outFail optsMut).finalHeaders ≠ optsMut.headers := by decide

/-- C9 (amended): the executor leaves the caller-supplied spec unchanged
except the Content-Type entry of its headers record: every other key reads
the same after the call, a non-empty caller Content-Type is preserved, the
record is untouched whenever the method/body trigger does not hold, and under
the trigger an absent or empty Content-Type is set to application/json. -/
theorem claim9_amended (env : Env) (outcomes : Nat → FetchOutcome)
    (opts : ApiRequestOptions) :
    (∀ k, k ≠ "Content-Type" →
      recordGet (fetchAPI env outcomes opts).finalHeaders k = recordGet opts.headers k) ∧
    ((isWriteMethod opts.method && isObjBody opts.body) = false →
      (fetchAPI env outcomes opts).finalHeaders = opts.headers) ∧
    (∀ v, v ≠ "" → recordGet opts.headers "Content-Type" = some v →
      recordGet (fetchAPI env outcomes opts).finalHeaders "Content-Type" = some v) ∧
    ((isWriteMethod opts.method && isObjBody opts.body) = true →
      1 ≤ totalAttempts opts.retries →
      (recordGet opts.headers "Content-Type" = none ∨
        recordGet opts.headers "Content-Type" = some "") →
      recordGet (fetchAPI env outcomes opts).finalHeaders "Content-Type" =
        some "application/json") := by
  rcases Nat.eq_zero_or_pos (totalAttempts opts.retries) with h0 | h1
  · have hfh : (fetchAPI env outcomes opts).finalHeaders = opts.headers := by
      rw [fetchAPI, h0]
      rfl
    refine ⟨fun k _ => by rw [hfh], fun _ => hfh,
      fun v _ hv => by rw [hfh]; exact hv, fun _ hta _ => ?_⟩
    omega
  · have hfh : (fetchAPI env outcomes opts).finalHeaders =
        mutateHeaders opts opts.headers :=
      fetchLoop_finalHeaders env outcomes opts (totalAttempts opts.retries) 0 .undef
        opts.headers h1
    refine ⟨?_, ?_, ?_, ?_⟩
    · intro k hk
      rw [hfh, mutateHeaders]
      by_cases ht : (isWriteMethod opts.method && isObjBody opts.body) = true
      · rw [if_pos ht]; exact recordGet_recordSet_ne _ _ hk
      · rw [if_neg ht]
    · intro ht
      rw [hfh, mutateHeaders, if_neg (by rw [ht]; exact Bool.false_ne_true)]
    · intro v hv hct
      rw [hfh, mutateHeaders]
      by_cases ht : (isWriteMethod opts.method && isObjBody opts.body) = true
      · rw [if_pos ht, recordGet_recordSet_self, hct]
        simp only [orDefaultStr]
        rw [if_neg fun hh => hv (beq_iff_eq.mp hh)]
      · rw [if_neg ht]; exact hct
    · intro ht _ hct
      rw [hfh, mutateHeaders, if_pos ht, recordGet_recordSet_self]
      rcases hct with hct | hct <;> rw [hct] <;> rfl

/-- Witness for the amended C9: unrelated caller headers survive and the
Content-Type entry is filled in. -/
theorem claim9_witness :
    recordGet (fetchAPI env0 outFail optsMutHdr).finalHeaders "X-Token" =
      recordGet optsMutHdr.headers "X-Token" ∧
    recordGet (fetchAPI env0 outFail optsMutHdr).finalHeaders "Content-Type" =
      some "application/json" := by
  have h := claim9_amended env0 outFail optsMutHdr
  exact ⟨h.1 "X-Token" (by decide), h.2.2.2 (by decide) (by decide) (Or.inl rfl)⟩

/-- C10: a failure is retriable exactly when its name is AbortError or its
message contains the case-sensitive substring Network; any other first-attempt
failure makes fetchAPI return the status-0 error result at once, with no
backoff wait and a single request on the wire, however many retries remain. -/
theorem claim10 :
    (∀ nm ms, isRetriable nm ms = true ↔
      (nm = "AbortError" ∨ ∃ pre post, ms.toList = pre ++ "Network".toList ++ post)) ∧
    (∀ (env : Env) (outcomes : Nat → FetchOutcome) (opts : ApiRequestOptions)
      (nm ms : String) (d : Nat),
      1 ≤ totalAttempts opts.retries →
      outcomes 0 = .failure nm ms d →
      isRetriable nm ms = false →
      (fetchAPI env outcomes opts).result = .ok (mkErrorResult ms d) ∧
        (fetchAPI env outcomes opts).waits = [] ∧
        (fetchAPI env outcomes opts).requests.length = 1) := by
  constructor
  · intro nm ms
    rw [isRetriable, Bool.or_eq_true, beq_iff_eq, strContains_iff]
  · intro env outcomes opts nm ms d hta ho hnr
    rcases Nat.exists_eq_add_of_le hta with ⟨r, hr⟩
    have hr2 : totalAttempts opts.retries = r + 1 := by omega
    rw [fetchAPI, hr2,
      fetchLoop_nonretriable env outcomes opts r 0 .undef opts.headers nm ms d ho hnr]
    exact ⟨rfl, rfl, rfl⟩

/-- Witness for C10: a first-attempt Failed-to-fetch error with five retries
remaining returns immediately, with no waits and one request. -/
theorem claim10_witness :
    (fetchAPI env0 outFail optsRetry5).result = .ok (mkErrorResult "Failed to fetch" 7) ∧
    (fetchAPI env0 outFail optsRetry5).waits = [] ∧
    (fetchAPI env0 outFail optsRetry5).requests.length = 1 :=
  claim10.2 env0 outFail optsRetry5 "TypeError" "Failed to fetch" 7 (by decide) rfl (by decide)
